import Mathlib

/-!
# Verification of the arbitrage engine's discovery and evaluation pipeline

A shallow embedding of the opportunity discovery/evaluation core of the
repository (profit calculator, best-hop quoter, path evaluator, path
generator, consensus checker, z-score gate, scan orchestrator), together
with theorems settling the specification claims.

Modelling conventions:
* JavaScript `BigInt` values are embedded as `Int`; `BigInt` division
  truncates toward zero, which is `Int.tdiv`.  A `BigInt` division by
  zero throws a `RangeError`; functions that can hit it return `Option`
  and model the throw as `none`.
* The network-backed quote adapters, the transaction simulator and the
  calldata encoder are out-of-scope collaborators; they are passed in as
  an explicit environment of functions (`QuoteEnv`).
* Display-only floating point (percentages, statistical values) is
  embedded as exact rationals `ℚ`; `Math.sqrt` is an abstract function
  parameter constrained only where the source relies on it.
-/

namespace ArbEngine

/-! ## Profit calculator (`src/profitCalculator.js`) -/

/-- The result record of `calculateNetProfit`.  `profitPercentBps` is the
integer `netProfit * 10000n / borrowedAmount` before the display-only
float conversion `Number(...) / 100`. -/
structure ProfitResult where
  netProfit : Int
  profitPercentBps : Int
  repayAmount : Int
  premium : Int
deriving DecidableEq, Repr

/-- `calculateNetProfit(grossOutput, borrowedAmount, gasEstimate)` of
`src/profitCalculator.js`.  The Aave premium is hard-coded to 9 bps
(`borrowedAmount * 9n / 10000n`).  The source computes the slippage
factor as `BigInt(Math.round((1 - config.slippageBuffer) * 10000))`;
for a buffer expressed in whole basis points that is `10000 - slippageBps`,
which is how the factor is embedded here.  The profit-percentage line
divides by `borrowedAmount`; for `borrowedAmount = 0` the JavaScript
`BigInt` division throws, modelled as `none`. -/
def calculateNetProfit (slippageBps : Nat) (grossOutput borrowedAmount gasEstimate : Int) :
    Option ProfitResult :=
  let premium := Int.tdiv (borrowedAmount * 9) 10000
  let repayAmount := borrowedAmount + premium
  let slippageFactor : Int := 10000 - (slippageBps : Int)
  let slippageAdjustedOutput := Int.tdiv (grossOutput * slippageFactor) 10000
  let netProfit := slippageAdjustedOutput - repayAmount - gasEstimate
  if borrowedAmount = 0 then none
  else some ⟨netProfit, Int.tdiv (netProfit * 10000) borrowedAmount, repayAmount, premium⟩

/-- The flash-loan premium exactly as the spec's reference formula states it
(`premium = borrowedAmount * PREMIUM_BPS / 10000` with `PREMIUM_BPS = 9`). -/
def premiumSpec (borrowedAmount : Int) : Int := Int.tdiv (borrowedAmount * 9) 10000

/-- The spec's `repayAmount = borrowedAmount + premium`. -/
def repayAmountSpec (borrowedAmount : Int) : Int := borrowedAmount + premiumSpec borrowedAmount

/-- The claim's reference slippage adjustment, literally
`slippageAdj = grossOutput - grossOutput * slippageBps / 10000`. -/
def claimSlippageAdj (slippageBps : Nat) (grossOutput : Int) : Int :=
  grossOutput - Int.tdiv (grossOutput * (slippageBps : Int)) 10000

/-- The claim's reference net profit built from its own formulas. -/
def claimNetProfit (slippageBps : Nat) (grossOutput borrowedAmount gasEstimate : Int) : Int :=
  claimSlippageAdj slippageBps grossOutput - repayAmountSpec borrowedAmount - gasEstimate

/-- The slippage adjustment the code actually performs:
`grossOutput * (10000 - slippageBps) / 10000` in a single floor division. -/
def amendedSlippageAdj (slippageBps : Nat) (grossOutput : Int) : Int :=
  Int.tdiv (grossOutput * (10000 - (slippageBps : Int))) 10000

/-- Net profit with the amended slippage adjustment. -/
def amendedNetProfit (slippageBps : Nat) (grossOutput borrowedAmount gasEstimate : Int) : Int :=
  amendedSlippageAdj slippageBps grossOutput - repayAmountSpec borrowedAmount - gasEstimate

/-- C1 counterexample: at `grossOutput = 1`, `borrowedAmount = 10000`,
`gasEstimate = 0` and `slippageBps = 30`, the code's net profit
(`-10009`, from `slippageAdj = 1 * 9970 / 10000 = 0`) differs from the
claim's reference formula (`-10008`, from `slippageAdj = 1 - 0 = 1`), so
`calculateNetProfit` does not equal the claim's reference definition for
all inputs. -/
theorem C1_counterexample :
    (calculateNetProfit 30 1 10000 0).map (fun r => r.netProfit) ≠
      some (claimNetProfit 30 1 10000 0) := by
  decide

/-- C1 (amended): for every input with a nonzero borrowed amount,
`calculateNetProfit` returns exactly the premium, repay amount and net
profit given by the reference formulas, with the slippage adjustment
computed as the single floor division `grossOutput * (10000 - slippageBps) / 10000`
(rather than the claim's `grossOutput - grossOutput * slippageBps / 10000`). -/
theorem C1_amended_eq (slippageBps : Nat) (grossOutput borrowedAmount gasEstimate : Int)
    (hb : borrowedAmount ≠ 0) :
    calculateNetProfit slippageBps grossOutput borrowedAmount gasEstimate =
      some ⟨amendedNetProfit slippageBps grossOutput borrowedAmount gasEstimate,
            Int.tdiv (amendedNetProfit slippageBps grossOutput borrowedAmount gasEstimate * 10000)
              borrowedAmount,
            repayAmountSpec borrowedAmount, premiumSpec borrowedAmount⟩ := by
  simp [calculateNetProfit, amendedNetProfit, amendedSlippageAdj, repayAmountSpec,
    premiumSpec, hb]

/-- C1 witness: the spec's worked example.  `calculateNetProfit` with
`grossOutput = 1_000_000`, `borrowedAmount = 1_000_000`, `gasEstimate = 0`
and 30 bps slippage yields `premium = 900`, `repayAmount = 1_000_900`,
`netProfit = 997_000 - 1_000_900 = -3_900`. -/
theorem C1_witness :
    calculateNetProfit 30 1000000 1000000 0 = some ⟨-3900, -39, 1000900, 900⟩ := by
  rw [C1_amended_eq 30 1000000 1000000 0 (by decide)]
  decide

/-- C10: `calculateNetProfit` is not total at the public interface — with
`borrowedAmount = 0` the profit-percentage division by `borrowedAmount`
has no guard and the `BigInt` division throws (modelled as `none`),
for every gross output and gas estimate. -/
theorem C10_borrowed_zero_error (slippageBps : Nat) (grossOutput gasEstimate : Int) :
    calculateNetProfit slippageBps grossOutput 0 gasEstimate = none := by
  simp [calculateNetProfit]

/-! ## Quotes and the best-hop quoter (`src/opportunityScanner.js`, lines 12-37) -/

/-- A venue's priced response to a single hop.  `toTokenAmount` is the raw
output amount; `none` models a missing field (the JSON shapes of the
adapters are inconsistent).  `aggregator`/`dex` are the venue tags the
scanner dispatches on; `fee` and `stable` are passed through to the
venue-specific calldata builders. -/
structure Quote where
  toTokenAmount : Option Int
  aggregator : Option String
  dex : Option String
  fee : Option Nat
  stable : Option Bool
deriving DecidableEq, Repr, Inhabited

/-- `BigInt(q.toTokenAmount)`: the output amount of a quote, `0` when the
field is missing. -/
def quoteAmount (q : Quote) : Int := q.toTokenAmount.getD 0

/-- `{to, data}` returned by a swap-calldata builder (`to` is a Lean
keyword, so the field is spelled `toAddr`). -/
structure SwapData where
  toAddr : String
  data : String
deriving DecidableEq, Repr

/-- An execution step pushed by `evaluatePath`:
`{ target: swapData.to, data: swapData.data }`. -/
structure ExecStep where
  target : String
  data : String
deriving DecidableEq, Repr

/-- The out-of-scope collaborators `opportunityScanner.js` calls into:
the per-venue quote adapters, the per-venue calldata builders, the
z-score conviction gate, the off-chain simulator and the ABI encoder.
All are network/chain-backed; they enter the model as opaque functions. -/
structure QuoteEnv where
  getUniswapQuote : String → String → Int → Option Quote
  getAerodromeQuote : String → String → Int → Option Quote
  getOdosQuote : String → String → Int → Option Quote
  getOdosAssemble : Quote → Option SwapData
  getUniswapSwapData : String → String → Int → Int → Option Nat → Option SwapData
  getAerodromeSwapData : String → String → Int → Int → Option Bool → Option SwapData
  getPancakeSwapSwapData : String → String → Int → Int → Option Nat → Option SwapData
  isHighConviction : String → Bool
  simulateTransaction : String → String → Bool
  encodeExecuteArb : List String → List ExecStep → Int → String

/-- JavaScript falsiness of an optional string argument:
`undefined`/`null`/`''` are falsy. -/
def isFalsyStr : Option String → Bool
  | none => true
  | some s => s == ""

/-- `if (q) quotes.push(q)`. -/
def optToList : Option Quote → List Quote
  | some q => [q]
  | none => []

/-- The candidate list `quotes` built by `getBestHopQuote`: the Uniswap
adapter when no preferred venue is given or it is `'uniswap'`, the
Aerodrome adapter when none is given or it is `'aerodrome'`, and the
Odos aggregator unconditionally ("Always try Odos aggregator"). -/
def hopCandidates (env : QuoteEnv) (fromToken toToken : String) (amountIn : Int)
    (preferredDex : Option String) : List Quote :=
  let quotes : List Quote := []
  let quotes := if isFalsyStr preferredDex ∨ preferredDex = some "uniswap" then
      quotes ++ optToList (env.getUniswapQuote fromToken toToken amountIn) else quotes
  let quotes := if isFalsyStr preferredDex ∨ preferredDex = some "aerodrome" then
      quotes ++ optToList (env.getAerodromeQuote fromToken toToken amountIn) else quotes
  quotes ++ optToList (env.getOdosQuote fromToken toToken amountIn)

/-- `quotes.filter(q => q && q.toTokenAmount && BigInt(q.toTokenAmount) > 0n)`:
quotes with a missing or non-positive output amount are discarded. -/
def validHopQuotes (env : QuoteEnv) (fromToken toToken : String) (amountIn : Int)
    (preferredDex : Option String) : List Quote :=
  (hopCandidates env fromToken toToken amountIn preferredDex).filter
    (fun q => q.toTokenAmount.isSome && decide (0 < quoteAmount q))

/-- `validQuotes.reduce((best, current) => current > best ? current : best)`:
a `reduce` without initial value, `none` on the empty list. -/
def pickBestQuote : List Quote → Option Quote
  | [] => none
  | b :: rest =>
      some (rest.foldl
        (fun best current => if quoteAmount best < quoteAmount current then current else best) b)

/-- `getBestHopQuote(fromToken, toToken, amountIn, preferredDex)` of
`src/opportunityScanner.js`. -/
def getBestHopQuote (env : QuoteEnv) (fromToken toToken : String) (amountIn : Int)
    (preferredDex : Option String) : Option Quote :=
  pickBestQuote (validHopQuotes env fromToken toToken amountIn preferredDex)

/-- The first-max characterisation of the scanner's `reduce`: the fold that
keeps `best` unless `current` is strictly greater lands on the first
element attaining the maximum. -/
theorem foldl_pickBest_first_max {α : Type} (amt : α → Int) :
    ∀ (l : List α) (b : α), ∃ l₁ l₂,
      b :: l = l₁ ++
          (l.foldl (fun best current => if amt best < amt current then current else best) b) :: l₂ ∧
        (∀ r ∈ l₁,
          amt r < amt (l.foldl (fun best current =>
            if amt best < amt current then current else best) b)) ∧
        (∀ r ∈ l₂,
          amt r ≤ amt (l.foldl (fun best current =>
            if amt best < amt current then current else best) b)) := by
  intro l
  induction l with
  | nil =>
      intro b
      exact ⟨[], [], rfl, by simp, by simp⟩
  | cons c rest ih =>
      intro b
      simp only [List.foldl_cons]
      by_cases h : amt b < amt c
      · rw [if_pos h]
        obtain ⟨l₁, l₂, heq, hlt, hle⟩ := ih c
        refine ⟨b :: l₁, l₂, ?_, ?_, hle⟩
        · rw [List.cons_append, ← heq]
        · intro r hr
          rcases List.mem_cons.mp hr with hrb | hrl
          · subst hrb
            -- `c` occurs in `c :: rest = l₁ ++ q :: l₂`, so `amt c ≤ amt q`
            have hc : c ∈ l₁ ++
                (rest.foldl (fun best current =>
                  if amt best < amt current then current else best) c) :: l₂ := by
              rw [← heq]; exact List.mem_cons_self c rest
            rcases List.mem_append.mp hc with hc1 | hc2
            · exact lt_trans h (hlt c hc1)
            · rcases List.mem_cons.mp hc2 with hc3 | hc4
              · rw [hc3] at h; exact h
              · exact lt_of_lt_of_le h (hle c hc4)
          · exact hlt r hrl
      · rw [if_neg h]
        obtain ⟨l₁, l₂, heq, hlt, hle⟩ := ih b
        cases l₁ with
        | nil =>
            -- the running best is `b` itself; everything in `rest` is `≤ b`
            rw [List.nil_append] at heq
            injection heq with hb hrest
            refine ⟨[], c :: l₂, ?_, by simp, ?_⟩
            · rw [List.nil_append, ← hb, ← hrest]
            · intro r hr
              rcases List.mem_cons.mp hr with hrc | hrl
              · subst hrc; rw [← hb]; exact le_of_not_lt h
              · exact hle r hrl
        | cons b' l₁' =>
            rw [List.cons_append] at heq
            injection heq with hb' hrest
            subst hb'
            refine ⟨b :: c :: l₁', l₂, ?_, ?_, hle⟩
            · rw [List.cons_append, List.cons_append, ← hrest]
            · intro r hr
              have hbq : amt b < amt (rest.foldl (fun best current =>
                  if amt best < amt current then current else best) b) :=
                hlt b (List.mem_cons_self b l₁')
              rcases List.mem_cons.mp hr with hrb | hr'
              · subst hrb; exact hbq
              · rcases List.mem_cons.mp hr' with hrc | hrl
                · subst hrc; exact lt_of_le_of_lt (le_of_not_lt h) hbq
                · exact hlt r (List.mem_cons_of_mem b hrl)

/-- C5: `getBestHopQuote` filters the adapters' quotes down to those with a
present, strictly positive output amount (`validHopQuotes`); it returns
`none` exactly when no valid quote remains, and otherwise the first quote
in source-list order whose output amount is maximal: every earlier valid
quote is strictly smaller and every later one is at most as large. -/
theorem C5_best_hop_quote (env : QuoteEnv) (fromToken toToken : String) (amountIn : Int)
    (preferredDex : Option String) :
    (getBestHopQuote env fromToken toToken amountIn preferredDex = none ↔
      validHopQuotes env fromToken toToken amountIn preferredDex = []) ∧
    (∀ q, getBestHopQuote env fromToken toToken amountIn preferredDex = some q →
      ∃ l₁ l₂, validHopQuotes env fromToken toToken amountIn preferredDex = l₁ ++ q :: l₂ ∧
        (∀ r ∈ l₁, quoteAmount r < quoteAmount q) ∧
        (∀ r ∈ l₂, quoteAmount r ≤ quoteAmount q)) := by
  unfold getBestHopQuote
  cases hv : validHopQuotes env fromToken toToken amountIn preferredDex with
  | nil => exact ⟨by simp [pickBestQuote], by simp [pickBestQuote]⟩
  | cons b rest =>
      constructor
      · simp [pickBestQuote]
      · intro q hq
        simp only [pickBestQuote, Option.some.injEq] at hq
        obtain ⟨l₁, l₂, heq, hlt, hle⟩ := foldl_pickBest_first_max quoteAmount rest b
        rw [hq] at heq hlt hle
        exact ⟨l₁, l₂, heq, hlt, hle⟩

/-- A Uniswap quote worth 500, as in the spec's two-adapter example. -/
def q500 : Quote := ⟨some 500, none, some "uniswap", some 3000, none⟩

/-- An Odos aggregator quote worth 700. -/
def q700 : Quote := ⟨some 700, some "odos", none, none, none⟩

/-- A concrete environment: the Uniswap adapter quotes 500, Aerodrome has
no quote, and the Odos aggregator quotes 700. -/
def env57 : QuoteEnv :=
  ⟨fun _ _ _ => some q500, fun _ _ _ => none, fun _ _ _ => some q700,
   fun _ => none, fun _ _ _ _ _ => none, fun _ _ _ _ _ => none, fun _ _ _ _ _ => none,
   fun _ => false, fun _ _ => false, fun _ _ _ => ""⟩

/-- An environment in which every adapter returns nothing. -/
def envNone : QuoteEnv :=
  ⟨fun _ _ _ => none, fun _ _ _ => none, fun _ _ _ => none,
   fun _ => none, fun _ _ _ _ _ => none, fun _ _ _ _ _ => none, fun _ _ _ _ _ => none,
   fun _ => false, fun _ _ => false, fun _ _ _ => ""⟩

/-- C5 witness: in the two-adapter environment (500 and 700) the best-hop
quoter's characterisation holds concretely, and with all adapters
returning nothing it returns `none`. -/
theorem C5_witness :
    (∃ l₁ l₂, validHopQuotes env57 "A" "B" 10 none = l₁ ++ q700 :: l₂ ∧
        (∀ r ∈ l₁, quoteAmount r < quoteAmount q700) ∧
        (∀ r ∈ l₂, quoteAmount r ≤ quoteAmount q700)) ∧
    getBestHopQuote envNone "A" "B" 10 none = none :=
  ⟨(C5_best_hop_quote env57 "A" "B" 10 none).2 q700 (by decide),
   (C5_best_hop_quote envNone "A" "B" 10 none).1.mpr (by decide)⟩

/-- C6 counterexample: with `preferredVenue = 'uniswap'` supplied and
recognized, the quoter still queries the Odos aggregator — in `env57`
(Uniswap quoting 500, Odos quoting 700) the hop resolves to the Odos
aggregator's quote, which could not happen if only the Uniswap adapter
were queried. -/
theorem C6_counterexample :
    getBestHopQuote env57 "A" "B" 10 (some "uniswap") = some q700 ∧
      q700.aggregator = some "odos" := by
  constructor
  · decide
  · rfl

/-- C6 (amended): for every hop and every supplied-and-recognized
preferred venue (the scanner recognizes `'uniswap'` and `'aerodrome'`),
the candidate list consists of exactly that venue's direct-AMM quote
(when one is returned) followed by the catch-all Odos aggregator's quote
(when one is returned) — so the Odos aggregator is always queried in
addition, for every hop, while the other direct AMM adapter is never
consulted: the hop's result is independent of the Aerodrome adapter when
`'uniswap'` is preferred and independent of the Uniswap adapter when
`'aerodrome'` is preferred. -/
theorem C6_amended (env env' : QuoteEnv) (fromToken toToken : String) (amountIn : Int) :
    (∀ pref : String, pref = "uniswap" ∨ pref = "aerodrome" →
      hopCandidates env fromToken toToken amountIn (some pref) =
        (if pref = "uniswap"
          then optToList (env.getUniswapQuote fromToken toToken amountIn)
          else optToList (env.getAerodromeQuote fromToken toToken amountIn)) ++
        optToList (env.getOdosQuote fromToken toToken amountIn)) ∧
    (env.getUniswapQuote = env'.getUniswapQuote → env.getOdosQuote = env'.getOdosQuote →
      getBestHopQuote env fromToken toToken amountIn (some "uniswap") =
        getBestHopQuote env' fromToken toToken amountIn (some "uniswap")) ∧
    (env.getAerodromeQuote = env'.getAerodromeQuote → env.getOdosQuote = env'.getOdosQuote →
      getBestHopQuote env fromToken toToken amountIn (some "aerodrome") =
        getBestHopQuote env' fromToken toToken amountIn (some "aerodrome")) := by
  refine ⟨?_, ?_, ?_⟩
  · intro pref hpref
    rcases hpref with h | h
    · subst h
      simp [hopCandidates, isFalsyStr]
    · subst h
      simp [hopCandidates, isFalsyStr]
  · intro hu ho
    unfold getBestHopQuote validHopQuotes hopCandidates
    rw [hu, ho]
    simp [isFalsyStr]
  · intro ha ho
    unfold getBestHopQuote validHopQuotes hopCandidates
    rw [ha, ho]
    simp [isFalsyStr]

/-- An Aerodrome quote worth 999, better than anything in `env57`. -/
def q999 : Quote := ⟨some 999, none, some "aerodrome", none, some false⟩

/-- `env57` with the Aerodrome adapter additionally quoting 999. -/
def env57aero : QuoteEnv :=
  ⟨fun _ _ _ => some q500, fun _ _ _ => some q999, fun _ _ _ => some q700,
   fun _ => none, fun _ _ _ _ _ => none, fun _ _ _ _ _ => none, fun _ _ _ _ _ => none,
   fun _ => false, fun _ _ => false, fun _ _ _ => ""⟩

/-- `env57` with the Uniswap adapter instead quoting 999. -/
def env57uni : QuoteEnv :=
  ⟨fun _ _ _ => some q999, fun _ _ _ => none, fun _ _ _ => some q700,
   fun _ => none, fun _ _ _ _ _ => none, fun _ _ _ _ _ => none, fun _ _ _ _ _ => none,
   fun _ => false, fun _ _ => false, fun _ _ _ => ""⟩

/-- C6 witness: the amended statement applied concretely.  The
`'uniswap'`-preferred candidate list of `env57` is the Uniswap quote
followed by the Odos quote; adding a better (999) Aerodrome quote to the
environment does not change the `'uniswap'`-preferred result — which is
the Odos quote 700, so the aggregator was queried but Aerodrome was
not — and symmetrically changing the Uniswap adapter does not change the
`'aerodrome'`-preferred result. -/
theorem C6_witness :
    hopCandidates env57 "A" "B" 10 (some "uniswap") =
      (if "uniswap" = "uniswap"
        then optToList (env57.getUniswapQuote "A" "B" 10)
        else optToList (env57.getAerodromeQuote "A" "B" 10)) ++
      optToList (env57.getOdosQuote "A" "B" 10) ∧
    getBestHopQuote env57 "A" "B" 10 (some "uniswap") =
      getBestHopQuote env57aero "A" "B" 10 (some "uniswap") ∧
    getBestHopQuote env57aero "A" "B" 10 (some "uniswap") = some q700 ∧
    getBestHopQuote env57 "A" "B" 10 (some "aerodrome") =
      getBestHopQuote env57uni "A" "B" 10 (some "aerodrome") ∧
    getBestHopQuote env57uni "A" "B" 10 (some "aerodrome") = some q700 :=
  ⟨(C6_amended env57 env57 "A" "B" 10).1 "uniswap" (Or.inl rfl),
   (C6_amended env57 env57aero "A" "B" 10).2.1 rfl rfl,
   by decide,
   (C6_amended env57 env57uni "A" "B" 10).2.2 rfl rfl,
   by decide⟩

/-! ## Path evaluator (`src/opportunityScanner.js`, lines 42-137) -/

/-- One hop of a cached path: `{from, to, dex}`.  `dex` is `none` when the
path JSON carries no venue hint (the JS value is then `undefined`). -/
structure HopSpec where
  fromTok : String
  toTok : String
  dex : Option String
deriving DecidableEq, Repr, Inhabited

/-- `buildSwapData(quote, fromToken, toToken, amountIn)`: Odos quotes go
through the assemble endpoint; direct-DEX quotes get a slippage-adjusted
minimum output `quote.toTokenAmount * (10000 - slippageBps) / 10000` and
are dispatched on `quote.dex`; anything else yields `null`. -/
def buildSwapData (env : QuoteEnv) (slippageBps : Nat) (quote : Quote)
    (fromToken toToken : String) (amountIn : Int) : Option SwapData :=
  if quote.aggregator = some "odos" then env.getOdosAssemble quote
  else
    let slippageFactor : Int := 10000 - (slippageBps : Int)
    let amountOutMin := Int.tdiv (quoteAmount quote * slippageFactor) 10000
    if quote.dex = some "uniswap" then
      env.getUniswapSwapData fromToken toToken amountIn amountOutMin quote.fee
    else if quote.dex = some "aerodrome" then
      env.getAerodromeSwapData fromToken toToken amountIn amountOutMin quote.stable
    else if quote.dex = some "pancakeswap" then
      env.getPancakeSwapSwapData fromToken toToken amountIn amountOutMin quote.fee
    else none

/-- `!swapData || !swapData.to || !swapData.data`: calldata construction
failed (no result, or an empty target/calldata string, the only falsy
strings). -/
def swapDataInvalid : Option SwapData → Bool
  | none => true
  | some sd => sd.toAddr == "" || sd.data == ""

/-- The hop-by-hop walk of `evaluatePath`: carries the running amount, the
accumulated execution steps and the token sequence; a missing quote or a
failed calldata build kills the whole walk.  After a successful hop the
running amount becomes `BigInt(quote.toTokenAmount)` — the quote's raw
output. -/
def evaluatePathLoop (env : QuoteEnv) (slippageBps : Nat) :
    List HopSpec → Int → List ExecStep → List String →
      Option (Int × List ExecStep × List String)
  | [], currentAmount, executedHops, tokens => some (currentAmount, executedHops, tokens)
  | hop :: rest, currentAmount, executedHops, tokens =>
    match getBestHopQuote env hop.fromTok hop.toTok currentAmount hop.dex with
    | none => none
    | some quote =>
      match buildSwapData env slippageBps quote hop.fromTok hop.toTok currentAmount with
      | none => none
      | some sd =>
        if sd.toAddr = "" ∨ sd.data = "" then none
        else evaluatePathLoop env slippageBps rest (quoteAmount quote)
          (executedHops ++ [⟨sd.toAddr, sd.data⟩]) (tokens ++ [hop.toTok])

/-- `hop` is not viable at running amount `cur`: the best-hop quoter finds
nothing, or calldata construction for the best quote fails. -/
def hopFails (env : QuoteEnv) (slippageBps : Nat) (hop : HopSpec) (cur : Int) : Bool :=
  match getBestHopQuote env hop.fromTok hop.toTok cur hop.dex with
  | none => true
  | some q => swapDataInvalid (buildSwapData env slippageBps q hop.fromTok hop.toTok cur)

/-- `ethers.parseUnits('0.0005', 'ether')`, the conservative gas estimate
hard-coded in `evaluatePath`. -/
def GAS_COST_ESTIMATE : Int := 500000000000000

/-- The configuration values `evaluatePath` and `isProfitable` read:
the slippage buffer in basis points, the profit threshold already
converted to smallest units (`ethers.parseUnits(config.profitThreshold, 'ether')`),
and the optional execution-contract address for the active network. -/
structure ScanConfig where
  slippageBps : Nat
  profitThresholdWei : Int
  contractAddress : Option String
deriving Repr

/-- `isProfitable(netProfit, pair)` of `src/profitCalculator.js`: the
threshold is doubled when the conviction gate flags the pair. -/
def isProfitable (env : QuoteEnv) (cfg : ScanConfig) (netProfit : Int) (pair : String) : Bool :=
  let threshold := cfg.profitThresholdWei
  let threshold := if env.isHighConviction pair then threshold * 2 else threshold
  threshold < netProfit

/-- The pair label `` `${tokens[0]}/${tokens[tokens.length - 1]}` ``
passed to the conviction gate. -/
def pairLabel (tokens : List String) : String :=
  tokens.headD "" ++ "/" ++ tokens.getLastD ""

/-- An assembled opportunity (the human-readable path description is
display-only and omitted). -/
structure Opportunity where
  netProfit : Int
  profitPercentBps : Int
  initialAmount : Int
  finalAmount : Int
  tokens : List String
  hops : List ExecStep
deriving DecidableEq, Repr, Inhabited

/-- `evaluatePath(pathHops, initialAmount, tokenDatabase)` of
`src/opportunityScanner.js`.  An empty hop list makes the JS throw on
`pathHops[0].from` (callers pre-filter empty paths); that is modelled as
`none`.  After the walk: net profit over the borrowed amount and the
hard-coded gas estimate, the profitability gate, and — when an execution
contract is configured — a mandatory off-chain simulation. -/
def evaluatePath (env : QuoteEnv) (cfg : ScanConfig) (pathHops : List HopSpec)
    (initialAmount : Int) : Option Opportunity :=
  match pathHops with
  | [] => none
  | h0 :: _ =>
    match evaluatePathLoop env cfg.slippageBps pathHops initialAmount [] [h0.fromTok] with
    | none => none
    | some (finalAmount, executedHops, tokens) =>
      match calculateNetProfit cfg.slippageBps finalAmount initialAmount GAS_COST_ESTIMATE with
      | none => none
      | some res =>
        if isProfitable env cfg res.netProfit (pairLabel tokens) then
          match cfg.contractAddress with
          | some addr =>
            if env.simulateTransaction addr (env.encodeExecuteArb tokens executedHops initialAmount)
            then some ⟨res.netProfit, res.profitPercentBps, initialAmount, finalAmount,
                       tokens, executedHops⟩
            else none
          | none => some ⟨res.netProfit, res.profitPercentBps, initialAmount, finalAmount,
                          tokens, executedHops⟩
        else none

/-- The walk processes an appended hop list sequentially: the second part
runs from wherever the first part ends, and a dead first part kills the
whole walk. -/
theorem evaluatePathLoop_append (env : QuoteEnv) (s : Nat) (l₁ l₂ : List HopSpec) :
    ∀ (cur : Int) (acc : List ExecStep) (toks : List String),
      evaluatePathLoop env s (l₁ ++ l₂) cur acc toks =
        (evaluatePathLoop env s l₁ cur acc toks).bind
          (fun st => evaluatePathLoop env s l₂ st.1 st.2.1 st.2.2) := by
  induction l₁ with
  | nil => intro cur acc toks; simp [evaluatePathLoop]
  | cons hop rest ih =>
      intro cur acc toks
      rw [List.cons_append]
      cases hq : getBestHopQuote env hop.fromTok hop.toTok cur hop.dex with
      | none => simp [evaluatePathLoop, hq]
      | some quote =>
          cases hb : buildSwapData env s quote hop.fromTok hop.toTok cur with
          | none => simp [evaluatePathLoop, hq, hb]
          | some sd =>
              by_cases hsd : sd.toAddr = "" ∨ sd.data = ""
              · simp [evaluatePathLoop, hq, hb, hsd]
              · simp only [evaluatePathLoop, hq, hb, if_neg hsd, ih]

/-- One dead hop kills the walk from its own position on. -/
theorem evaluatePathLoop_none_of_hopFails (env : QuoteEnv) (s : Nat) (hop : HopSpec)
    (rest : List HopSpec) (cur : Int) (acc : List ExecStep) (toks : List String)
    (hf : hopFails env s hop cur = true) :
    evaluatePathLoop env s (hop :: rest) cur acc toks = none := by
  unfold hopFails at hf
  cases hq : getBestHopQuote env hop.fromTok hop.toTok cur hop.dex with
  | none => simp [evaluatePathLoop, hq]
  | some quote =>
      simp only [hq] at hf
      cases hb : buildSwapData env s quote hop.fromTok hop.toTok cur with
      | none => simp [evaluatePathLoop, hq, hb]
      | some sd =>
          simp only [hb, swapDataInvalid] at hf
          have hval : sd.toAddr = "" ∨ sd.data = "" := by
            rcases Bool.or_eq_true_iff.mp hf with h | h
            · exact Or.inl (by simpa using h)
            · exact Or.inr (by simpa using h)
          simp [evaluatePathLoop, hq, hb, hval]

/-- C4: no partial opportunity.  If the walk reaches some hop of the path
(having succeeded on the hops before it) and that hop is not viable —
the best-hop quoter returns `null` for it, or swap-calldata construction
fails for its best quote — then `evaluatePath` returns `null` for the
whole path. -/
theorem C4_no_partial (env : QuoteEnv) (cfg : ScanConfig) (initialAmount : Int)
    (pre post : List HopSpec) (hop h0 : HopSpec) (tl : List HopSpec)
    (cur : Int) (acc : List ExecStep) (toks : List String)
    (hsplit : pre ++ hop :: post = h0 :: tl)
    (hpre : evaluatePathLoop env cfg.slippageBps pre initialAmount [] [h0.fromTok] =
      some (cur, acc, toks))
    (hf : hopFails env cfg.slippageBps hop cur = true) :
    evaluatePath env cfg (pre ++ hop :: post) initialAmount = none := by
  have hloop : evaluatePathLoop env cfg.slippageBps (h0 :: tl) initialAmount [] [h0.fromTok] =
      none := by
    rw [← hsplit, evaluatePathLoop_append, hpre]
    simpa using evaluatePathLoop_none_of_hopFails env cfg.slippageBps hop post cur acc toks hf
  rw [hsplit]
  simp [evaluatePath, hloop]

/-- A defaulted scan configuration: 30 bps slippage buffer, zero profit
threshold, no execution contract configured. -/
def cfg30 : ScanConfig := ⟨30, 0, none⟩

/-- A two-hop path `A → B → A` with no venue hints. -/
def hopAB : HopSpec := ⟨"A", "B", none⟩

/-- The closing hop `B → A`. -/
def hopBA : HopSpec := ⟨"B", "A", none⟩

/-- C4 witness: with every adapter returning nothing, the very first hop of
`A → B → A` has no quote, and `evaluatePath` returns `none` for the whole
path. -/
theorem C4_witness :
    evaluatePath envNone cfg30 ([] ++ hopAB :: [hopBA]) 1000 = none :=
  C4_no_partial envNone cfg30 1000 [] [hopBA] hopAB hopAB [hopBA] 1000 [] ["A"]
    rfl rfl (by decide)

/-- C7: raw-output propagation.  The walk's base case returns the running
amount unchanged as the path's final gross figure, and after a successful
hop — quote found, calldata built with a non-empty target and data — the
walk continues on the remaining hops with the quote's raw output amount
`quoteAmount q` as the next input, not the slippage-adjusted minimum that
`buildSwapData` encoded into the execution step. -/
theorem C7_raw_propagation (env : QuoteEnv) (s : Nat) :
    (∀ (cur : Int) (acc : List ExecStep) (toks : List String),
      evaluatePathLoop env s [] cur acc toks = some (cur, acc, toks)) ∧
    (∀ (hop : HopSpec) (rest : List HopSpec) (cur : Int) (acc : List ExecStep)
        (toks : List String) (q : Quote) (sd : SwapData),
      getBestHopQuote env hop.fromTok hop.toTok cur hop.dex = some q →
      buildSwapData env s q hop.fromTok hop.toTok cur = some sd →
      sd.toAddr ≠ "" → sd.data ≠ "" →
      evaluatePathLoop env s (hop :: rest) cur acc toks =
        evaluatePathLoop env s rest (quoteAmount q)
          (acc ++ [⟨sd.toAddr, sd.data⟩]) (toks ++ [hop.toTok])) := by
  constructor
  · intro cur acc toks; rfl
  · intro hop rest cur acc toks q sd hq hb hto hdata
    have hcond : ¬(sd.toAddr = "" ∨ sd.data = "") := fun h => h.elim hto hdata
    simp only [evaluatePathLoop, hq, hb, if_neg hcond]

/-- A Uniswap quote worth 700 for the single verified hop. -/
def q700u : Quote := ⟨some 700, none, some "uniswap", some 500, none⟩

/-- An environment whose Uniswap adapter quotes 700 and builds calldata
`{to: "R", data: "0xdead"}`. -/
def env700 : QuoteEnv :=
  ⟨fun _ _ _ => some q700u, fun _ _ _ => none, fun _ _ _ => none,
   fun _ => none, fun _ _ _ _ _ => some ⟨"R", "0xdead"⟩, fun _ _ _ _ _ => none,
   fun _ _ _ _ _ => none,
   fun _ => false, fun _ _ => false, fun _ _ _ => ""⟩

/-- C7 witness: after a successful `A → B` hop quoted at 700, the walk
continues with running amount 700 — the raw quote output. -/
theorem C7_witness :
    evaluatePathLoop env700 30 [hopAB] 100 [] ["A"] =
      evaluatePathLoop env700 30 [] (quoteAmount q700u)
        ([] ++ [⟨"R", "0xdead"⟩]) (["A"] ++ [hopAB.toTok]) :=
  (C7_raw_propagation env700 30).2 hopAB [] 100 [] ["A"] q700u ⟨"R", "0xdead"⟩
    (by decide) (by decide) (by decide) (by decide)

/-! ## Consensus checker (`src/opportunityScanner.js`, second variant, lines 232-259) -/

/-- `quotes.sort((a, b) => BigInt(b.toTokenAmount) < BigInt(a.toTokenAmount) ? -1 : 1)`:
sort descending by output amount (embedded as a stable insertion sort on
the same descending order). -/
def sortQuotesDesc (quotes : List Quote) : List Quote :=
  quotes.insertionSort (fun a b => quoteAmount b ≤ quoteAmount a)

/-- `Number(difference * 10000n / bestAmount) / 10000`, the fractional
deviation of a quote from the best quote: an integer division scaled back
down, embedded exactly over `ℚ`. -/
def percentageDifference (bestAmount amount : Int) : ℚ :=
  let difference := if amount < bestAmount then bestAmount - amount else amount - bestAmount
  ((Int.tdiv (difference * 10000) bestAmount : Int) : ℚ) / 10000

/-- The quotes (of the sorted list) within `tolerance` of the best amount. -/
def agreeingQuotes (sorted : List Quote) (bestAmount : Int) (tolerance : ℚ) : List Quote :=
  sorted.filter (fun q => percentageDifference bestAmount (quoteAmount q) ≤ tolerance)

/-- `checkConsensus(quotes, consensusThreshold = 2/3, tolerance = 0.01)`:
empty input returns `null`; otherwise the agreeing fraction of the
descending-sorted quotes must reach the threshold for the best quote to
be trusted. -/
def checkConsensus (quotes : List Quote) (consensusThreshold tolerance : ℚ) : Option Quote :=
  if quotes.isEmpty then none
  else
    let sorted := sortQuotesDesc quotes
    let bestQuote := sorted.headI
    let bestAmount := quoteAmount bestQuote
    let agreeing := agreeingQuotes sorted bestAmount tolerance
    if consensusThreshold ≤ (agreeing.length : ℚ) / (quotes.length : ℚ) then some bestQuote
    else none

/-- The four quotes of the spec's consensus example, with output amounts
100, 99, 98 and 50. -/
def qc100 : Quote := ⟨some 100, some "odos", none, none, none⟩

/-- Output amount 99. -/
def qc99 : Quote := ⟨some 99, some "1inch", none, none, none⟩

/-- Output amount 98. -/
def qc98 : Quote := ⟨some 98, none, some "uniswap", some 3000, none⟩

/-- Output amount 50. -/
def qc50 : Quote := ⟨some 50, none, some "aerodrome", none, some true⟩

/-- The example's quotes sort descending into `100, 99, 98, 50`. -/
theorem sortQuotesDesc_example :
    sortQuotesDesc [qc100, qc99, qc98, qc50] = [qc100, qc99, qc98, qc50] := by
  decide

/-- Deviation of 100 from the best 100: exactly 0. -/
theorem pdiff_100_100 : percentageDifference 100 100 = 0 := by
  simp only [percentageDifference]
  norm_num [Int.zero_tdiv]

/-- Deviation of 99 from the best 100: exactly 1%. -/
theorem pdiff_100_99 : percentageDifference 100 99 = 1/100 := by
  simp only [percentageDifference]
  norm_num [show Int.tdiv 10000 100 = 100 from by decide]

/-- Deviation of 98 from the best 100: exactly 2%. -/
theorem pdiff_100_98 : percentageDifference 100 98 = 2/100 := by
  simp only [percentageDifference]
  norm_num [show Int.tdiv 20000 100 = 200 from by decide]

/-- Deviation of 50 from the best 100: exactly 50%. -/
theorem pdiff_100_50 : percentageDifference 100 50 = 1/2 := by
  simp only [percentageDifference]
  norm_num [show Int.tdiv 500000 100 = 5000 from by decide]

/-- Only the 100- and 99-quotes lie within the 1% tolerance of the best. -/
theorem agreeingQuotes_example :
    agreeingQuotes [qc100, qc99, qc98, qc50] 100 (1/100) = [qc100, qc99] := by
  have h1 : percentageDifference 100 100 ≤ 1/100 := by rw [pdiff_100_100]; norm_num
  have h2 : percentageDifference 100 99 ≤ 1/100 := by rw [pdiff_100_99]
  have h3 : ¬ percentageDifference 100 98 ≤ 1/100 := by rw [pdiff_100_98]; norm_num
  have h4 : ¬ percentageDifference 100 50 ≤ 1/100 := by rw [pdiff_100_50]; norm_num
  simp only [agreeingQuotes, List.filter, quoteAmount, qc100, qc99, qc98, qc50, Option.getD]
  rw [decide_eq_true h1, decide_eq_true h2, decide_eq_false h3, decide_eq_false h4]

/-- The full consensus run on the example returns `null`: 2 of 4 agreeing
quotes is below the 2/3 quorum. -/
theorem checkConsensus_example :
    checkConsensus [qc100, qc99, qc98, qc50] (2/3) (1/100) = none := by
  unfold checkConsensus
  rw [if_neg (by decide : ¬ ([qc100, qc99, qc98, qc50].isEmpty = true))]
  simp only [sortQuotesDesc_example, List.headI]
  rw [show quoteAmount qc100 = 100 from rfl]
  rw [agreeingQuotes_example]
  norm_num

/-- C2 counterexample: on the outputs `[100, 99, 98, 50]` with
`tolerance = 0.01` and `threshold = 2/3` the checker returns `null`, not
the 100-quote: 98 deviates 2% from 100, so only `{100, 99}` agree and
`2/4 < 2/3`. -/
theorem C2_counterexample :
    checkConsensus [qc100, qc99, qc98, qc50] (2/3) (1/100) ≠ some qc100 := by
  rw [checkConsensus_example]
  exact Option.noConfusion

/-- C2 (amended): on `[100, 99, 98, 50]` with `tolerance = 0.01` and
`threshold = 2/3`, the agreeing set is `{100, 99}` (98 is 2% below the
best, outside the 1% tolerance), 2 of 4 quotes is below the 2/3 quorum,
and `checkConsensus` returns `null` rather than the 100-quote. -/
theorem C2_amended :
    agreeingQuotes (sortQuotesDesc [qc100, qc99, qc98, qc50]) (quoteAmount qc100) (1/100) =
      [qc100, qc99] ∧
    ¬ ((2 : ℚ)/3 ≤ (2 : ℚ)/4) ∧
    checkConsensus [qc100, qc99, qc98, qc50] (2/3) (1/100) = none := by
  refine ⟨?_, by norm_num, checkConsensus_example⟩
  rw [sortQuotesDesc_example, show quoteAmount qc100 = 100 from rfl, agreeingQuotes_example]

/-! ## Conviction gate (`src/zScoreEngine.js`) -/

/-- `computeZScore` of `src/zScoreEngine.js`, modelled at the point where
the price series fetched from the market-data collaborator is in hand
(`historicalData`; `none` models both a failed fetch and a series shorter
than 2 returned as `null` upstream).  The float arithmetic is embedded
exactly over `ℚ`; `Math.sqrt` enters as an abstract `sqrtFn` (only
`sqrtFn 0 = 0` is ever relied on).  Population mean and variance; a zero
standard deviation short-circuits to exactly `0` before any division. -/
def computeZScore (sqrtFn : ℚ → ℚ) (historicalData : Option (List ℚ)) : Option ℚ :=
  match historicalData with
  | none => none
  | some prices =>
    if prices.length < 2 then none
    else
      let currentPrice := prices.headI
      let mean := prices.sum / (prices.length : ℚ)
      let squaredDiffs := prices.map (fun val => (val - mean) ^ 2)
      let variance := squaredDiffs.sum / (prices.length : ℚ)
      let stdDev := sqrtFn variance
      if stdDev = 0 then some 0
      else some ((currentPrice - mean) / stdDev)

/-- C8: for every price series, `computeZScore` (i) returns `null` when no
series is available or it has fewer than 2 observations, (ii) always
returns a well-defined rational on a usable series — the division is
guarded, so no NaN/Infinity can arise — and (iii) returns exactly `0` on
any perfectly flat series (standard deviation 0), such as `[10,10,10,10]`. -/
theorem C8_zscore_safe (sqrtFn : ℚ → ℚ) (hsqrt : sqrtFn 0 = 0) :
    (computeZScore sqrtFn none = none) ∧
    (∀ prices : List ℚ, prices.length < 2 → computeZScore sqrtFn (some prices) = none) ∧
    (∀ prices : List ℚ, 2 ≤ prices.length →
      ∃ z : ℚ, computeZScore sqrtFn (some prices) = some z) ∧
    (∀ (n : ℕ) (c : ℚ), 2 ≤ n →
      computeZScore sqrtFn (some (List.replicate n c)) = some 0) := by
  refine ⟨rfl, ?_, ?_, ?_⟩
  · intro prices h
    simp [computeZScore, h]
  · intro prices h
    have h' : ¬ prices.length < 2 := not_lt.mpr h
    simp only [computeZScore]
    rw [if_neg h']
    by_cases hz : sqrtFn ((prices.map
        (fun val => (val - prices.sum / (prices.length : ℚ)) ^ 2)).sum / (prices.length : ℚ)) = 0
    · exact ⟨0, by rw [if_pos hz]⟩
    · exact ⟨_, by rw [if_neg hz]⟩
  · intro n c hn
    have hlen : (List.replicate n c).length = n := List.length_replicate n c
    have h' : ¬ (List.replicate n c).length < 2 := by rw [hlen]; exact not_lt.mpr hn
    have hn0 : (n : ℚ) ≠ 0 := by
      have : 0 < n := lt_of_lt_of_le (by norm_num) hn
      exact_mod_cast this.ne'
    simp only [computeZScore]
    rw [if_neg h']
    have hmean : (List.replicate n c).sum / (((List.replicate n c).length : ℕ) : ℚ) = c := by
      rw [hlen, List.sum_replicate, nsmul_eq_mul]
      field_simp
    have hsq : (List.replicate n c).map (fun val => (val - c) ^ 2) =
        List.replicate n 0 := by
      rw [List.map_replicate]
      simp
    have hvar : (List.replicate n (0 : ℚ)).sum / (((List.replicate n c).length : ℕ) : ℚ) = 0 := by
      rw [List.sum_replicate]
      simp
    simp only [hmean, hsq, hvar, hsqrt, if_pos]

/-- C8 witness: with `sqrtFn = id` (which sends 0 to 0, as `Math.sqrt`
does), the flat series `[10,10,10,10]` gives exactly `0`, a one-point
series gives `null`, and a missing series gives `null`. -/
theorem C8_witness :
    computeZScore id (some [10, 10, 10, 10]) = some 0 ∧
    computeZScore id (some [10]) = none ∧
    computeZScore id none = none :=
  ⟨(C8_zscore_safe id rfl).2.2.2 4 10 (by norm_num),
   (C8_zscore_safe id rfl).2.1 [10] (by norm_num),
   (C8_zscore_safe id rfl).1⟩

/-! ## Scan orchestrators (`src/bot.js` lines 100-131 and the single-hop
variant's `startScanning`) -/

/-- `opportunities.sort((a, b) => profitB > profitA ? 1 : profitB < profitA ? -1 : 0)`
of `bot.js`: stable sort descending by net profit. -/
def sortOpportunitiesByProfitDesc (opps : List Opportunity) : List Opportunity :=
  opps.insertionSort (fun a b => b.netProfit ≤ a.netProfit)

/-- The opportunities one `bot.js` scan cycle hands to execution: after
`scanAllPaths` collects `opportunities`, the cycle sorts them descending
by net profit and calls `handleOpportunity(opportunities[0])` — only the
best one — or nothing when the cycle found none. -/
def scanCycleHandoffs (opportunities : List Opportunity) : List Opportunity :=
  if 0 < opportunities.length then [(sortOpportunitiesByProfitDesc opportunities).headI]
  else []

/-- The opportunities one scan cycle of the single-hop variant's
`startScanning` hands to execution:
`for (const opportunity of opportunities) await handleOpportunity(opportunity)` —
every collected opportunity, in order. -/
def singleHopScanCycleHandoffs (opportunities : List Opportunity) : List Opportunity :=
  opportunities.foldl (fun handed opportunity => handed ++ [opportunity]) []

/-- An opportunity with net profit 5. -/
def oppA : Opportunity := ⟨5, 1, 1000, 1005, ["A", "B", "A"], [⟨"R", "0x01"⟩, ⟨"R", "0x02"⟩]⟩

/-- An opportunity with net profit 7. -/
def oppB : Opportunity := ⟨7, 1, 1000, 1007, ["A", "C", "A"], [⟨"R", "0x03"⟩, ⟨"R", "0x04"⟩]⟩

/-- C9 counterexample: the single-hop variant's scan cycle hands off every
collected opportunity — with two opportunities collected it performs two
handoffs in one cycle, so the orchestrator does not hand off at most one
opportunity per cycle. -/
theorem C9_counterexample :
    ¬ (singleHopScanCycleHandoffs [oppA, oppB]).length ≤ 1 := by
  decide

/-- C9 (amended): the multi-hop orchestrator (`bot.js`) hands off at most
one opportunity per scan cycle, and any opportunity it hands off is one
of the cycle's collected opportunities with maximal net profit; the
single-hop variant instead hands off every collected opportunity in
order. -/
theorem C9_amended (opportunities : List Opportunity) :
    (scanCycleHandoffs opportunities).length ≤ 1 ∧
    (∀ o ∈ scanCycleHandoffs opportunities,
      o ∈ opportunities ∧ ∀ o' ∈ opportunities, o'.netProfit ≤ o.netProfit) ∧
    singleHopScanCycleHandoffs opportunities = opportunities := by
  refine ⟨?_, ?_, ?_⟩
  · unfold scanCycleHandoffs
    by_cases h : 0 < opportunities.length
    · rw [if_pos h]; exact le_refl 1
    · rw [if_neg h]; exact Nat.zero_le 1
  · intro o ho
    unfold scanCycleHandoffs at ho
    by_cases h : 0 < opportunities.length
    · rw [if_pos h] at ho
      have hsorted : List.Sorted (fun a b => b.netProfit ≤ a.netProfit)
          (sortOpportunitiesByProfitDesc opportunities) := by
        haveI : IsTotal Opportunity (fun a b => b.netProfit ≤ a.netProfit) :=
          ⟨fun a b => le_total b.netProfit a.netProfit⟩
        haveI : IsTrans Opportunity (fun a b => b.netProfit ≤ a.netProfit) :=
          ⟨fun _ _ _ hab hbc => le_trans hbc hab⟩
        exact List.sorted_insertionSort _ opportunities
      have hperm : List.Perm (sortOpportunitiesByProfitDesc opportunities) opportunities :=
        List.perm_insertionSort _ opportunities
      have hne : sortOpportunitiesByProfitDesc opportunities ≠ [] := by
        intro hnil
        rw [hperm.symm.length_eq, hnil] at h
        exact absurd h (by simp)
      obtain ⟨b, rest, hcons⟩ := List.exists_cons_of_ne_nil hne
      have hob : o = b := by
        rw [List.mem_singleton] at ho
        rw [ho, hcons, List.headI]
      subst hob
      constructor
      · exact hperm.mem_iff.mp (by rw [hcons]; exact List.mem_cons_self _ rest)
      · intro o' ho'
        have ho'' : o' ∈ sortOpportunitiesByProfitDesc opportunities :=
          hperm.mem_iff.mpr ho'
        rw [hcons] at ho'' hsorted
        rcases List.mem_cons.mp ho'' with h1 | h2
        · rw [h1]
        · exact (List.sorted_cons.mp hsorted).1 o' h2
    · rw [if_neg h] at ho
      exact absurd ho (List.not_mem_nil o)
  · unfold singleHopScanCycleHandoffs
    have haux : ∀ (l acc : List Opportunity),
        l.foldl (fun handed opportunity => handed ++ [opportunity]) acc = acc ++ l := by
      intro l
      induction l with
      | nil => intro acc; simp
      | cons x xs ih => intro acc; rw [List.foldl_cons, ih, List.append_assoc]; rfl
    rw [haux, List.nil_append]

/-- C9 witness: on the concrete two-opportunity cycle the multi-hop
orchestrator hands off at most one opportunity, and the one it hands off
(`oppB`, net profit 7) dominates both collected opportunities. -/
theorem C9_witness :
    (scanCycleHandoffs [oppA, oppB]).length ≤ 1 ∧
    (oppB ∈ [oppA, oppB] ∧ ∀ o' ∈ [oppA, oppB], o'.netProfit ≤ oppB.netProfit) :=
  ⟨(C9_amended [oppA, oppB]).1,
   (C9_amended [oppA, oppB]).2.1 oppB (by decide)⟩

/-! ## Path generator (`PathGenerator` class, `src/unnamed/part_005`) -/

/-- `address.toLowerCase()`, modelled as per-character lowercasing (token
addresses are ASCII hex strings). -/
def toLowerStr (s : String) : String := String.mk (s.data.map Char.toLower)

namespace PathGenerator

/-- The per-pair record of the token database; only the `dex` field is
read by the generator. -/
structure PairData where
  dex : String
deriving DecidableEq, Repr

/-- One entry of the token database:
`{symbol, liquidity, pairs: {counterpartyAddress -> {dex}}}`. -/
structure TokenData where
  symbol : String
  liquidity : Nat
  pairs : List (String × PairData)
deriving Repr

/-- The token database, an object keyed by token address (embedded as an
association list in property order). -/
abbrev TokenDatabase := List (String × TokenData)

/-- `tokenDatabase[address]`. -/
def dbLookup (db : TokenDatabase) (a : String) : Option TokenData :=
  (db.find? (fun e => e.1 == a)).map (fun e => e.2)

/-- The trading graph: a `Map` from lowercased token address to its
neighbor `Map` of (lowercased counterparty address, venue id), embedded
as association lists in insertion order. -/
abbrev Graph := List (String × List (String × String))

/-- `graph.get(address)`. -/
def graphGet (g : Graph) (a : String) : Option (List (String × String)) :=
  (g.find? (fun e => e.1 == a)).map (fun e => e.2)

/-- `buildGraph()`: one node per database token having at least one
neighbor that is itself in the database (checked under the lowercased and
the original key, as in the source). -/
def buildGraph (db : TokenDatabase) : Graph :=
  db.filterMap (fun entry =>
    let addr := toLowerStr entry.1
    let neighbors := entry.2.pairs.filterMap (fun pr =>
      let pairAddr := toLowerStr pr.1
      if (dbLookup db pairAddr).isSome || (dbLookup db pr.1).isSome then
        some (pairAddr, pr.2.dex)
      else none)
    if neighbors.isEmpty then none else some (addr, neighbors))

/-- `this.graph.get(fromToken)?.get(toToken) || 'unknown'`. -/
def hopDex (g : Graph) (fromToken toToken : String) : String :=
  (((graphGet g fromToken).bind (fun ns => ns.find? (fun e => e.1 == toToken))).map
    (fun e => e.2)).getD "unknown"

/-- `formatPath(pathNodes)`: turn the node sequence into hops carrying the
venue of each traversed edge. -/
def formatPath (g : Graph) : List String → List HopSpec
  | f :: t :: rest => ⟨f, t, some (hopDex g f t)⟩ :: formatPath g (t :: rest)
  | _ => []

/-- `const minHops = 2`. -/
def minHops : Nat := 2

/-- `const maxHops = 4`. -/
def maxHops : Nat := 4

/-- The `for (const [neighbor, dex] of neighbors.entries())` loop body of
`findCircularPaths`: emit a closed path when the neighbor is the start
node and the minimum hop count is reached, recurse (`recurse` is the
enclosing `findCircularPaths` at the current depth) on unvisited
neighbors below the maximum depth, and abort once the global cap is
hit. -/
def visitNeighbors (g : Graph) (maxPaths : Nat) (startNode : String)
    (currentPath visited : List String)
    (recurse : List String → List String → List (List HopSpec) → List (List HopSpec)) :
    List (String × String) → List (List HopSpec) → List (List HopSpec)
  | [], allPaths => allPaths
  | (neighbor, _dex) :: rest, allPaths =>
    if maxPaths ≤ allPaths.length then allPaths
    else if neighbor = startNode ∧ minHops ≤ currentPath.length then
      visitNeighbors g maxPaths startNode currentPath visited recurse rest
        (allPaths ++ [formatPath g (currentPath ++ [neighbor])])
    else if neighbor ∉ visited ∧ currentPath.length < maxHops then
      visitNeighbors g maxPaths startNode currentPath visited recurse rest
        (recurse (currentPath ++ [neighbor]) (visited ++ [neighbor]) allPaths)
    else visitNeighbors g maxPaths startNode currentPath visited recurse rest allPaths

/-- `findCircularPaths(startNode, currentPath, visited, allPaths, maxPaths)`:
bounded DFS emitting closed cycles.  The JS recursion is bounded by
`currentPath.length` growing to `maxHops`; the explicit `fuel` makes that
bound a structural argument (any `fuel > maxHops - currentPath.length`
behaves identically, and the generator calls it with `maxHops + 1`). -/
def findCircularPaths (g : Graph) (maxPaths : Nat) (startNode : String) :
    Nat → List String → List String → List (List HopSpec) → List (List HopSpec)
  | 0, _, _, allPaths => allPaths
  | fuel + 1, currentPath, visited, allPaths =>
    if maxHops < currentPath.length ∨ maxPaths ≤ allPaths.length then allPaths
    else
      match graphGet g (currentPath.getLastD "") with
      | none => allPaths
      | some neighbors =>
          visitNeighbors g maxPaths startNode currentPath visited
            (findCircularPaths g maxPaths startNode fuel) neighbors allPaths

/-- The fuel `generatePaths` hands the DFS (ample: the recursion depth is
bounded by `maxHops`). -/
def fcpFuel : Nat := maxHops + 1

/-- The `for (const startNode of this.flashLoanAssets)` loop of
`generatePaths`: skip hubs absent from the graph, stop at the global cap. -/
def genLoopHubs (g : Graph) (maxPaths : Nat) : List String → List (List HopSpec) →
    List (List HopSpec)
  | [], allPaths => allPaths
  | startNode :: rest, allPaths =>
    if (graphGet g startNode).isNone then genLoopHubs g maxPaths rest allPaths
    else if maxPaths ≤ allPaths.length then allPaths
    else genLoopHubs g maxPaths rest
      (findCircularPaths g maxPaths startNode fcpFuel [startNode] [startNode] allPaths)

/-- `getPathLiquidity(pathHops)`: the minimum liquidity over the distinct
tokens a path touches (0 when none is in the database). -/
def getPathLiquidity (db : TokenDatabase) (pathHops : List HopSpec) : Nat :=
  let uniqueTokens := (pathHops.flatMap (fun hop => [hop.fromTok, hop.toTok])).dedup
  let liqs := uniqueTokens.filterMap (fun a =>
    ((dbLookup db a).or (dbLookup db (toLowerStr a))).map (fun td => td.liquidity))
  match liqs with
  | [] => 0
  | x :: xs => xs.foldl Nat.min x

/-- `sortPathsByLiquidity(paths)`: stable sort descending by the bottleneck
liquidity. -/
def sortPathsByLiquidity (db : TokenDatabase) (paths : List (List HopSpec)) :
    List (List HopSpec) :=
  paths.insertionSort (fun a b => getPathLiquidity db b ≤ getPathLiquidity db a)

/-- `generatePaths()`: DFS from every (lowercased) flash-loanable hub with
the 5000-path global cap, then keep the top 2000 by bottleneck liquidity. -/
def generatePaths (db : TokenDatabase) (flashLoanAssets : List String) : List (List HopSpec) :=
  let g := buildGraph db
  let flashLoanAssetsLower := flashLoanAssets.map (fun a => toLowerStr a)
  let allPaths := genLoopHubs g 5000 flashLoanAssetsLower []
  (sortPathsByLiquidity db allPaths).take 2000

/-- The hop targets of a formatted path are the node sequence minus its
first node. -/
theorem formatPath_map_toTok (g : Graph) :
    ∀ ns : List String, (formatPath g ns).map HopSpec.toTok = ns.tail
  | [] => rfl
  | [_] => rfl
  | f :: t :: rest => by
      simp only [formatPath, List.map_cons, List.tail_cons]
      rw [formatPath_map_toTok g (t :: rest), List.tail_cons]

/-- The hop sources of a formatted path are the node sequence minus its
last node. -/
theorem formatPath_map_fromTok (g : Graph) :
    ∀ ns : List String, (formatPath g ns).map HopSpec.fromTok = ns.dropLast
  | [] => rfl
  | [_] => rfl
  | f :: t :: rest => by
      simp only [formatPath, List.map_cons]
      rw [formatPath_map_fromTok g (t :: rest)]
      rfl

/-- A formatted path has one hop fewer than it has nodes. -/
theorem formatPath_length (g : Graph) (ns : List String) :
    (formatPath g ns).length = ns.length - 1 := by
  have h := congrArg List.length (formatPath_map_toTok g ns)
  rw [List.length_map, List.length_tail] at h
  exact h

/-- The shape of any path the DFS for hub `startNode` emits: a closed
cycle `cp ++ [startNode]` whose open part `cp` starts at the hub, repeats
no token, and has between `minHops` and `maxHops` nodes. -/
def GoodEmit (g : Graph) (startNode : String) (p : List HopSpec) : Prop :=
  ∃ cp : List String, cp.head? = some startNode ∧ cp.Nodup ∧
    minHops ≤ cp.length ∧ cp.length ≤ maxHops ∧ p = formatPath g (cp ++ [startNode])

/-- The neighbor loop only adds well-formed emissions, provided its
`recurse` continuation does. -/
theorem visitNeighbors_emits_good (g : Graph) (maxPaths : Nat) (startNode : String)
    (currentPath visited : List String)
    (recurse : List String → List String → List (List HopSpec) → List (List HopSpec))
    (hhead : currentPath.head? = some startNode) (hnodup : currentPath.Nodup)
    (hlen : currentPath.length ≤ maxHops)
    (hrec : ∀ (n : String) (ap' : List (List HopSpec)), n ∉ visited →
      ∀ p ∈ recurse (currentPath ++ [n]) (visited ++ [n]) ap',
        p ∈ ap' ∨ GoodEmit g startNode p) :
    ∀ (neighbors : List (String × String)) (allPaths : List (List HopSpec)),
      ∀ p ∈ visitNeighbors g maxPaths startNode currentPath visited recurse neighbors allPaths,
        p ∈ allPaths ∨ GoodEmit g startNode p := by
  intro neighbors
  induction neighbors with
  | nil =>
      intro ap p hp
      simp only [visitNeighbors] at hp
      exact Or.inl hp
  | cons hd rest ih =>
      obtain ⟨neighbor, dex⟩ := hd
      intro ap p hp
      simp only [visitNeighbors] at hp
      by_cases hcap : maxPaths ≤ ap.length
      · rw [if_pos hcap] at hp
        exact Or.inl hp
      · rw [if_neg hcap] at hp
        by_cases hemit : neighbor = startNode ∧ minHops ≤ currentPath.length
        · rw [if_pos hemit] at hp
          rcases ih (ap ++ [formatPath g (currentPath ++ [neighbor])]) p hp with h1 | h2
          · rcases List.mem_append.mp h1 with ha | hb
            · exact Or.inl ha
            · right
              have hpe : p = formatPath g (currentPath ++ [neighbor]) := by
                simpa using hb
              exact ⟨currentPath, hhead, hnodup, hemit.2, hlen, by rw [hpe, hemit.1]⟩
          · exact Or.inr h2
        · rw [if_neg hemit] at hp
          by_cases hrecurse : neighbor ∉ visited ∧ currentPath.length < maxHops
          · rw [if_pos hrecurse] at hp
            rcases ih (recurse (currentPath ++ [neighbor]) (visited ++ [neighbor]) ap)
                p hp with h1 | h2
            · exact hrec neighbor ap hrecurse.1 p h1
            · exact Or.inr h2
          · rw [if_neg hrecurse] at hp
            exact ih ap p hp

/-- Every path the DFS appends to the accumulator is a well-formed closed
cycle for its hub. -/
theorem findCircularPaths_emits_good (g : Graph) (maxPaths : Nat) (startNode : String) :
    ∀ (fuel : Nat) (currentPath visited : List String) (allPaths : List (List HopSpec)),
      currentPath.head? = some startNode → currentPath.Nodup →
      (∀ x, x ∈ visited ↔ x ∈ currentPath) →
      ∀ p ∈ findCircularPaths g maxPaths startNode fuel currentPath visited allPaths,
        p ∈ allPaths ∨ GoodEmit g startNode p := by
  intro fuel
  induction fuel with
  | zero =>
      intro cp v ap _ _ _ p hp
      simp only [findCircularPaths] at hp
      exact Or.inl hp
  | succ fuel ih =>
      intro cp v ap hhead hnodup hequiv p hp
      simp only [findCircularPaths] at hp
      by_cases hguard : maxHops < cp.length ∨ maxPaths ≤ ap.length
      · rw [if_pos hguard] at hp
        exact Or.inl hp
      · rw [if_neg hguard] at hp
        cases hg : graphGet g (cp.getLastD "") with
        | none =>
            rw [hg] at hp
            exact Or.inl hp
        | some neighbors =>
            rw [hg] at hp
            have hlen : cp.length ≤ maxHops :=
              le_of_not_lt (fun hlt => hguard (Or.inl hlt))
            refine visitNeighbors_emits_good g maxPaths startNode cp v
              (findCircularPaths g maxPaths startNode fuel) hhead hnodup hlen
              ?_ neighbors ap p hp
            intro n ap' hn q hq
            have hnmem : n ∉ cp := fun hmem => hn ((hequiv n).mpr hmem)
            have hhead' : (cp ++ [n]).head? = some startNode := by
              cases cp with
              | nil => simp at hhead
              | cons a t => simpa using hhead
            have hnodup' : (cp ++ [n]).Nodup := by
              rw [List.nodup_append]
              exact ⟨hnodup, List.nodup_singleton n,
                fun x hx hx' => hnmem (by rwa [List.mem_singleton.mp hx'] at hx)⟩
            have hequiv' : ∀ x, x ∈ v ++ [n] ↔ x ∈ cp ++ [n] := by
              intro x
              simp only [List.mem_append, List.mem_singleton]
              exact or_congr_left (hequiv x)
            exact ih (cp ++ [n]) (v ++ [n]) ap' hhead' hnodup' hequiv' q hq

/-- Every path the hub loop accumulates is a well-formed closed cycle for
one of the hubs. -/
theorem genLoopHubs_emits_good (g : Graph) (maxPaths : Nat) :
    ∀ (hubs : List String) (allPaths : List (List HopSpec)) (p : List HopSpec),
      p ∈ genLoopHubs g maxPaths hubs allPaths →
      p ∈ allPaths ∨ ∃ s ∈ hubs, GoodEmit g s p := by
  intro hubs
  induction hubs with
  | nil =>
      intro ap p hp
      simp only [genLoopHubs] at hp
      exact Or.inl hp
  | cons s rest ih =>
      intro ap p hp
      simp only [genLoopHubs] at hp
      by_cases h1 : (graphGet g s).isNone
      · rw [if_pos h1] at hp
        rcases ih ap p hp with h | ⟨s', hs', hgood⟩
        · exact Or.inl h
        · exact Or.inr ⟨s', List.mem_cons_of_mem s hs', hgood⟩
      · rw [if_neg h1] at hp
        by_cases h2 : maxPaths ≤ ap.length
        · rw [if_pos h2] at hp
          exact Or.inl hp
        · rw [if_neg h2] at hp
          rcases ih _ p hp with h | ⟨s', hs', hgood⟩
          · rcases findCircularPaths_emits_good g maxPaths s fcpFuel [s] [s] ap
                (by simp) (List.nodup_singleton s) (fun x => Iff.rfl) p h with h' | hgood'
            · exact Or.inl h'
            · exact Or.inr ⟨s, List.mem_cons_self s rest, hgood'⟩
          · exact Or.inr ⟨s', List.mem_cons_of_mem s hs', hgood⟩

/-- The concrete well-formedness facts carried by a `GoodEmit` shape. -/
theorem goodEmit_props (g : Graph) (s : String) (p : List HopSpec) (h : GoodEmit g s p) :
    2 ≤ p.length ∧ p.length ≤ 4 ∧
    (∀ h0, p.head? = some h0 → h0.fromTok = s) ∧
    (∀ hl, p.getLast? = some hl → hl.toTok = s) ∧
    ((p.map HopSpec.toTok).dropLast).Nodup ∧ s ∉ (p.map HopSpec.toTok).dropLast := by
  obtain ⟨cp, hhead, hnodup, hmin, hmax, hp⟩ := h
  obtain ⟨cpTail, hcp⟩ : ∃ t, cp = s :: t := by
    cases cp with
    | nil => simp at hhead
    | cons a t =>
        simp only [List.head?_cons, Option.some.injEq] at hhead
        exact ⟨t, by rw [hhead]⟩
  subst hcp
  have htok : p.map HopSpec.toTok = cpTail ++ [s] := by
    rw [hp, formatPath_map_toTok]
    rfl
  have hfrom : p.map HopSpec.fromTok = s :: cpTail := by
    rw [hp, formatPath_map_fromTok, List.dropLast_concat]
  have hplen : p.length = cpTail.length + 1 := by
    have := congrArg List.length htok
    rw [List.length_map, List.length_append, List.length_cons, List.length_nil] at this
    exact this
  have hminlen : 1 ≤ cpTail.length := by
    have : minHops ≤ cpTail.length + 1 := by simpa using hmin
    simpa [minHops] using this
  have hmaxlen : cpTail.length + 1 ≤ maxHops := by simpa using hmax
  refine ⟨?_, ?_, ?_, ?_, ?_, ?_⟩
  · rw [hplen]; exact Nat.succ_le_succ hminlen
  · rw [hplen]; simpa [maxHops] using hmaxlen
  · intro h0 hh0
    have h1 : (p.map HopSpec.fromTok).head? = some h0.fromTok := by
      rw [List.head?_map, hh0]
      rfl
    rw [hfrom, List.head?_cons, Option.some.injEq] at h1
    exact h1.symm
  · intro hl hhl
    have h1 : (p.map HopSpec.toTok).getLast? = some hl.toTok := by
      rw [List.getLast?_map, hhl]
      rfl
    rw [htok, List.getLast?_concat, Option.some.injEq] at h1
    exact h1.symm
  · rw [htok, List.dropLast_concat]
    exact (List.nodup_cons.mp hnodup).2
  · rw [htok, List.dropLast_concat]
    exact (List.nodup_cons.mp hnodup).1

end PathGenerator

/-- C3: every path emitted by the path generator, for any token database
and hub-asset list, has between 2 and 4 hops, starts and ends at the same
(lowercased) hub token, repeats no intermediate token, and never revisits
the hub as an intermediate token. -/
theorem C3_generated_paths_wellformed (db : PathGenerator.TokenDatabase) (hubs : List String)
    (p : List HopSpec) (hp : p ∈ PathGenerator.generatePaths db hubs) :
    2 ≤ p.length ∧ p.length ≤ 4 ∧
    ∃ hub ∈ hubs,
      (∀ h0, p.head? = some h0 → h0.fromTok = toLowerStr hub) ∧
      (∀ hl, p.getLast? = some hl → hl.toTok = toLowerStr hub) ∧
      ((p.map HopSpec.toTok).dropLast).Nodup ∧
      toLowerStr hub ∉ (p.map HopSpec.toTok).dropLast := by
  simp only [PathGenerator.generatePaths] at hp
  have h1 := List.take_subset 2000 _ hp
  have h2 := (List.mem_insertionSort _).mp h1
  rcases PathGenerator.genLoopHubs_emits_good (PathGenerator.buildGraph db) 5000
      (hubs.map (fun a => toLowerStr a)) [] p h2 with h | ⟨s, hs, hgood⟩
  · exact absurd h (List.not_mem_nil p)
  · obtain ⟨hub, hhub, hslow⟩ := List.mem_map.mp hs
    obtain ⟨hl1, hl2, hh, hlast, hnd, hns⟩ :=
      PathGenerator.goodEmit_props (PathGenerator.buildGraph db) s p hgood
    subst hslow
    exact ⟨hl1, hl2, hub, hhub, hh, hlast, hnd, hns⟩

/-- A two-token database: `A` and `B` trade against each other on
Uniswap. -/
def dbAB : PathGenerator.TokenDatabase :=
  [("A", ⟨"TOKA", 100, [("B", ⟨"uniswap"⟩)]⟩),
   ("B", ⟨"TOKB", 50, [("A", ⟨"uniswap"⟩)]⟩)]

/-- The one cycle the generator finds in `dbAB` from hub `A`. -/
def pathABA : List HopSpec := [⟨"a", "b", some "uniswap"⟩, ⟨"b", "a", some "uniswap"⟩]

/-- C3 witness: the generator on the concrete two-token database emits the
cycle `a → b → a`, and the well-formedness facts hold for it. -/
theorem C3_witness :
    2 ≤ pathABA.length ∧ pathABA.length ≤ 4 ∧
    ∃ hub ∈ ["A"],
      (∀ h0, pathABA.head? = some h0 → h0.fromTok = toLowerStr hub) ∧
      (∀ hl, pathABA.getLast? = some hl → hl.toTok = toLowerStr hub) ∧
      ((pathABA.map HopSpec.toTok).dropLast).Nodup ∧
      toLowerStr hub ∉ (pathABA.map HopSpec.toTok).dropLast :=
  C3_generated_paths_wellformed dbAB ["A"] pathABA (by decide)

end ArbEngine
